import Mathlib

/-!
Verification of the buffered, policy-gated Kafka producer in
`data_pipeline/_kafka_producer.py`.

The producer is shallowly embedded: the mutable `KafkaProducer` object
becomes an explicit state `PState` (the per-topic message buffer, its total
size, the buffer start timestamp, and the chronological log of calls made to
the position tracker).  Each public operation (`publish`, `wake`,
`flush_buffered_messages`, `close`) becomes a function from a state to a
`StepOut` describing the next state, the produce requests handed to the
publish executor during that call, whether a flush ran, and whether the call
raised.

External collaborators (envelope codec, `yelp_crypto.encrypt_blob`,
`simplejson`, and the encryption-key lookup whose body is an explicit
placeholder in the source) are opaque parameters bundled in `Collab`; the
broker transport is modelled by the response list it would return
(`Option.none` models the transport call raising).  Payload values use a
small `PyVal` type mirroring Python dynamic values (None / bytes / dict)
so that the truthiness tests and the `isinstance(dict)` dispatch in
`_encrypt_message_using_yelp_crypto` are modelled exactly.
-/

namespace DataPipeline

/-- Python-style dynamic value as used for message payloads: `None`, a byte
string, or a JSON-style dict (modelled as an association list). -/
inductive PyVal where
  | pynone : PyVal
  | pybytes : List Nat → PyVal
  | pydict : List (String × Nat) → PyVal
deriving DecidableEq, Repr

/-- Python truthiness: `None`, empty bytes and the empty dict are falsy. -/
def PyVal.truthy : PyVal → Bool
  | .pynone => false
  | .pybytes b => !b.isEmpty
  | .pydict d => !d.isEmpty

/-- Python `x or y`: the first operand if truthy, otherwise the second. -/
def pyOr (a b : PyVal) : PyVal := if a.truthy then a else b

/-- A message handed to `KafkaProducer.publish`: destination topic, optional
partition keys, the PII flag, and the two payload representations (raw blob
`payload` and structured `payload_data`). -/
structure Message where
  topic : String
  keys : List Nat
  contains_pii : Bool
  payload : PyVal
  payload_data : PyVal
deriving DecidableEq, Repr

/-- Result of `kafka.create_message`: packed value bytes plus an optional
packed key (set only when the message has keys, per `_prepare`). -/
structure KafkaMessage where
  value : List Nat
  key : Option (List Nat)
deriving DecidableEq, Repr

/-- `kafka.common.ProduceRequest`: topic, partition, ordered messages. -/
structure ProduceRequest where
  topic : String
  partition : Nat
  messages : List KafkaMessage
deriving DecidableEq, Repr

/-- A per-topic response from `kafka_client.send_produce_request`. -/
structure KafkaResponse where
  topic : String
  offset : Int
  error : Nat
deriving DecidableEq, Repr

/-- A call made to the `PositionDataTracker` collaborator, recorded in
chronological order. -/
inductive TrackerEvent where
  | buffered : Message → TrackerEvent
  | published : String → Int → Nat → TrackerEvent
deriving DecidableEq, Repr

/-- Opaque external collaborators: the envelope codec (`pack`, `pack_keys`),
`yelp_crypto.encrypt_blob`, `simplejson` (`json_dumps`, `json_loads`), and
the outcome of `_retrieve_key` (`Option.none` models a falsy result, i.e.
key retrieval failed; the source body is a placeholder and the spec treats
retrieval as an opaque external call that may fail). -/
structure Collab where
  pack : Message → List Nat
  pack_keys : List Nat → List Nat
  encrypt_blob : Nat → PyVal → PyVal
  json_dumps : PyVal → PyVal
  json_loads : PyVal → PyVal
  retrieve_key : Option Nat

/-- Producer configuration surface read from `get_config()` plus the
`dry_run` constructor argument. -/
structure Config where
  skip_messages_with_pii : Bool
  user : String
  kafka_producer_flush_time_limit_seconds : Int
  kafka_producer_buffer_size : Nat
  dry_run : Bool

/-- `self.acceptable_users = ['batch']` set in `__init__`. -/
def acceptable_users : List String := ["batch"]

/-- The producer's mutable state: the per-topic buffer (association list in
insertion order, mirroring `defaultdict(list)`), `message_buffer_size`,
`start_time`, and the log of position-tracker calls. -/
structure PState where
  message_buffer : List (String × List KafkaMessage)
  message_buffer_size : Nat
  start_time : Int
  tracker : List TrackerEvent
deriving DecidableEq, Repr

/-- `self.message_buffer[topic].append(km)` on a `defaultdict(list)`:
append to the topic's sequence, creating the entry if absent. -/
def bufAppend : List (String × List KafkaMessage) → String → KafkaMessage →
    List (String × List KafkaMessage)
  | [], t, km => [(t, [km])]
  | (t2, ms) :: rest, t, km =>
      if t2 = t then (t2, ms ++ [km]) :: rest
      else (t2, ms) :: bufAppend rest t km

/-- `self.message_buffer[topic]` read on a `defaultdict(list)`: the topic's
sequence, `[]` when absent. -/
def bufGet : List (String × List KafkaMessage) → String → List KafkaMessage
  | [], _ => []
  | (t2, ms) :: rest, t => if t2 = t then ms else bufGet rest t

/-- Module-level `_prepare`: `create_message(envelope.pack(message), key=...)`
with the packed keys attached only when `message.keys` is truthy. -/
def _prepare (C : Collab) (message : Message) : KafkaMessage :=
  { value := C.pack message
    key := if message.keys.isEmpty then Option.none else some (C.pack_keys message.keys) }

/-- `KafkaProducer._prepare_message`. -/
def _prepare_message (C : Collab) (message : Message) : KafkaMessage :=
  _prepare C message

/-- `KafkaProducer._encrypt_message_using_yelp_crypto`: pick
`message.payload() or message.payload_data()`; if the pick is a dict,
replace `payload_data` with `json.loads(encrypt_blob(key, json.dumps(pick)))`,
otherwise replace `payload` with `encrypt_blob(key, pick)`.  (The source
returns `True`; the model returns the mutated message.) -/
def _encrypt_message_using_yelp_crypto (C : Collab) (key : Nat) (message : Message) : Message :=
  match pyOr message.payload message.payload_data with
  | .pydict d =>
      { message with payload_data := C.json_loads (C.encrypt_blob key (C.json_dumps (.pydict d))) }
  | p => { message with payload := C.encrypt_blob key p }

/-- `KafkaProducer._encrypt_message_with_pii`: if `_retrieve_key()` is truthy
encrypt and return truthily (`some` of the mutated message); otherwise
return `None`. -/
def _encrypt_message_with_pii (C : Collab) (message : Message) : Option Message :=
  match C.retrieve_key with
  | some key => some (_encrypt_message_using_yelp_crypto C key message)
  | Option.none => Option.none

/-- Observable outcome of one producer call: the successor state, the
produce requests handed to the publish executor during the call, whether
`flush_buffered_messages` ran, and whether the call raised. -/
structure StepOut where
  state : PState
  requests : List ProduceRequest
  flushed : Bool
  raised : Bool
deriving DecidableEq, Repr

/-- `KafkaProducer._reset_message_buffer`: fresh start timestamp, empty
buffer, zero count (the position callback receives a snapshot; the tracker
log itself is unchanged). -/
def _reset_message_buffer (s : PState) (now : Int) : PState :=
  { s with start_time := now, message_buffer := [], message_buffer_size := 0 }

/-- `KafkaProducer._generate_produce_requests`: one `ProduceRequest` with
`partition=0` per buffer entry, messages in buffered order. -/
def _generate_produce_requests (s : PState) : List ProduceRequest :=
  s.message_buffer.map (fun tm => { topic := tm.1, partition := 0, messages := tm.2 })

/-- The count accumulated by `_publish_produce_requests`: for each response,
the length of the buffered sequence for that response's topic. -/
def publishedCount (s : PState) (responses : List KafkaResponse) : Nat :=
  (responses.map (fun r => (bufGet s.message_buffer r.topic).length)).sum

/-- `KafkaProducer._publish_produce_requests` (live executor): send the
requests; for each response record `record_messages_published(topic, offset,
len(buffer[topic]))` (the error code is not examined); then
`assert published_messages_count == self.message_buffer_size`.  Returns the
tracker events recorded and whether the call raised (transport exception, or
the assertion failing).  `Option.none` for `broker` models the transport
call raising before any response is processed. -/
def _publish_produce_requests (s : PState) (_requests : List ProduceRequest)
    (broker : Option (List KafkaResponse)) : List TrackerEvent × Bool :=
  match broker with
  | Option.none => ([], true)
  | some responses =>
      (responses.map (fun r =>
          TrackerEvent.published r.topic r.offset (bufGet s.message_buffer r.topic).length),
        !(decide (publishedCount s responses = s.message_buffer_size)))

/-- `KafkaProducer._publish_produce_requests_dry_run`: for each request,
record `record_messages_published(topic, -1, len(request.messages))`; the
transport client is never consulted. -/
def _publish_produce_requests_dry_run (requests : List ProduceRequest) : List TrackerEvent :=
  requests.map (fun r => TrackerEvent.published r.topic (-1) r.messages.length)

/-- `KafkaProducer.flush_buffered_messages`: run the dry-run or live
executor on `_generate_produce_requests()`, then `_reset_message_buffer()`.
If the live executor raises, the exception propagates and the reset never
happens (tracker events recorded before the raise persist). -/
def flush_buffered_messages (cfg : Config) (s : PState) (now : Int)
    (broker : Option (List KafkaResponse)) : StepOut :=
  if cfg.dry_run then
    { state := _reset_message_buffer
        { s with tracker := s.tracker ++
            _publish_produce_requests_dry_run (_generate_produce_requests s) } now
      requests := _generate_produce_requests s
      flushed := true
      raised := false }
  else
    if (_publish_produce_requests s (_generate_produce_requests s) broker).2 then
      { state := { s with tracker := s.tracker ++
            (_publish_produce_requests s (_generate_produce_requests s) broker).1 }
        requests := _generate_produce_requests s
        flushed := true
        raised := true }
    else
      { state := _reset_message_buffer
          { s with tracker := s.tracker ++
              (_publish_produce_requests s (_generate_produce_requests s) broker).1 } now
        requests := _generate_produce_requests s
        flushed := true
        raised := false }

/-- `KafkaProducer._is_ready_to_flush`:
`(time.time() - start_time) >= time_limit or size >= buffer_size`. -/
def _is_ready_to_flush (cfg : Config) (s : PState) (now : Int) : Bool :=
  decide (now - s.start_time ≥ cfg.kafka_producer_flush_time_limit_seconds) ||
    decide (s.message_buffer_size ≥ cfg.kafka_producer_buffer_size)

/-- `KafkaProducer._flush_if_necessary`. -/
def _flush_if_necessary (cfg : Config) (s : PState) (now : Int)
    (broker : Option (List KafkaResponse)) : StepOut :=
  if _is_ready_to_flush cfg s now then flush_buffered_messages cfg s now broker
  else { state := s, requests := [], flushed := false, raised := false }

/-- `KafkaProducer.wake`: the flush check with no message appended. -/
def wake (cfg : Config) (s : PState) (now : Int)
    (broker : Option (List KafkaResponse)) : StepOut :=
  _flush_if_necessary cfg s now broker

/-- `KafkaProducer._add_message_to_buffer`: append the prepared message to
the topic's sequence and increment `message_buffer_size`. -/
def _add_message_to_buffer (C : Collab) (s : PState) (message : Message) : PState :=
  { s with
    message_buffer := bufAppend s.message_buffer message.topic (_prepare_message C message)
    message_buffer_size := s.message_buffer_size + 1 }

/-- `self.position_data_tracker.record_message_buffered(message)`. -/
def record_message_buffered (s : PState) (message : Message) : PState :=
  { s with tracker := s.tracker ++ [TrackerEvent.buffered message] }

/-- `KafkaProducer.publish`: the PII gate (drop on skip-PII or unauthorized
user; drop when `_encrypt_message_with_pii` does not return `True`), then
buffer, record with the position tracker, and `_flush_if_necessary`. -/
def publish (cfg : Config) (C : Collab) (s : PState) (message : Message) (now : Int)
    (broker : Option (List KafkaResponse)) : StepOut :=
  if message.contains_pii then
    if cfg.skip_messages_with_pii || !(acceptable_users.contains cfg.user) then
      { state := s, requests := [], flushed := false, raised := false }
    else
      match _encrypt_message_with_pii C message with
      | Option.none => { state := s, requests := [], flushed := false, raised := false }
      | some message2 =>
          _flush_if_necessary cfg
            (record_message_buffered (_add_message_to_buffer C s message2) message2) now broker
  else
    _flush_if_necessary cfg
      (record_message_buffered (_add_message_to_buffer C s message) message) now broker

/-- `KafkaProducer.close`: `flush_buffered_messages()` then
`kafka_client.close()`.  The boolean reports whether the transport
connection was released; if the flush raises, the exception propagates and
`kafka_client.close()` is never reached. -/
def close (cfg : Config) (s : PState) (now : Int)
    (broker : Option (List KafkaResponse)) : StepOut × Bool :=
  (flush_buffered_messages cfg s now broker,
    !(flush_buffered_messages cfg s now broker).raised)

/-- The privacy-gate decision of §4.1, reified from the branch structure of
`publish` (lines 73-81) and `_encrypt_message_with_pii`. -/
inductive Decision where
  | Pass | Drop | Encrypt
deriving DecidableEq, Repr

/-- The gate decision taken by `publish` for a message. -/
def gateDecision (cfg : Config) (C : Collab) (m : Message) : Decision :=
  if m.contains_pii then
    if cfg.skip_messages_with_pii || !(acceptable_users.contains cfg.user) then .Drop
    else
      match C.retrieve_key with
      | some _ => .Encrypt
      | Option.none => .Drop
  else .Pass

/-- The message `publish` buffers, if any: `Option.none` when the gate
drops, `some m` on Pass, `some (encrypted m)` on Encrypt. -/
def acceptedMessage (cfg : Config) (C : Collab) (m : Message) : Option Message :=
  if m.contains_pii then
    if cfg.skip_messages_with_pii || !(acceptable_users.contains cfg.user) then Option.none
    else _encrypt_message_with_pii C m
  else some m

/-- One external call into the producer, with its exogenous inputs: the
current clock value and what the broker transport would return if called. -/
inductive Op where
  | publish : Message → Int → Option (List KafkaResponse) → Op
  | wake : Int → Option (List KafkaResponse) → Op
  | flush : Int → Option (List KafkaResponse) → Op
deriving DecidableEq, Repr

/-- Dispatch one operation. -/
def stepOp (cfg : Config) (C : Collab) (s : PState) : Op → StepOut
  | .publish m now broker => publish cfg C s m now broker
  | .wake now broker => wake cfg s now broker
  | .flush now broker => flush_buffered_messages cfg s now broker

/-- Accumulated outcome of a sequence of producer calls: final state, all
produce requests handed to the executor, and whether any flush ran. -/
structure RunOut where
  state : PState
  requests : List ProduceRequest
  flushed : Bool
deriving DecidableEq, Repr

/-- Run a sequence of operations (a caller that catches exceptions and
keeps going, the worst case for the safety properties proved below). -/
def run (cfg : Config) (C : Collab) (s : PState) : List Op → RunOut
  | [] => { state := s, requests := [], flushed := false }
  | op :: ops =>
      { state := (run cfg C (stepOp cfg C s op).state ops).state
        requests := (stepOp cfg C s op).requests ++
          (run cfg C (stepOp cfg C s op).state ops).requests
        flushed := (stepOp cfg C s op).flushed ||
          (run cfg C (stepOp cfg C s op).state ops).flushed }

/-- Whether an operation is a `publish` of exactly the message `m`. -/
def isPublishOfMsg (m : Message) : Op → Bool
  | .publish m2 _ _ => decide (m2 = m)
  | _ => false

/-- 1 for a publish the gate accepts, 0 otherwise. -/
def acceptedDelta (cfg : Config) (C : Collab) : Op → Nat
  | .publish m _ _ => if (acceptedMessage cfg C m).isSome then 1 else 0
  | _ => 0

/-- Number of accepted (non-dropped) publishes in an operation sequence. -/
def acceptedCount (cfg : Config) (C : Collab) (ops : List Op) : Nat :=
  (ops.map (acceptedDelta cfg C)).sum

/-- The prepared forms of the accepted messages destined for topic `t`, in
publish order. -/
def acceptedPrepared (cfg : Config) (C : Collab) (t : String) : List Op → List KafkaMessage
  | [] => []
  | .publish m _ _ :: ops =>
      (match acceptedMessage cfg C m with
       | some m2 => if m2.topic = t then [_prepare_message C m2] else []
       | Option.none => []) ++ acceptedPrepared cfg C t ops
  | .wake _ _ :: ops => acceptedPrepared cfg C t ops
  | .flush _ _ :: ops => acceptedPrepared cfg C t ops

/-- BufferState invariant of §3: the scalar total equals the sum of the
per-topic sequence lengths. -/
def sizeInv (s : PState) : Prop :=
  s.message_buffer_size = (s.message_buffer.map (fun p => p.2.length)).sum

/-- The buffer holds at most one entry per topic. -/
def topicsNodup (s : PState) : Prop :=
  (s.message_buffer.map Prod.fst).Nodup

/- Concrete instances used by the witness theorems. -/

/-- A concrete prepared message. -/
def km0 : KafkaMessage := { value := [1], key := Option.none }

/-- Another concrete prepared message. -/
def km1 : KafkaMessage := { value := [2], key := Option.none }

/-- Concrete collaborators with key retrieval succeeding. -/
def collab0 : Collab :=
  { pack := fun m => [m.keys.length]
    pack_keys := id
    encrypt_blob := fun key _ => PyVal.pybytes [key]
    json_dumps := id
    json_loads := id
    retrieve_key := some 7 }

/-- Concrete collaborators with key retrieval failing. -/
def collabNoKey : Collab := { collab0 with retrieve_key := Option.none }

/-- Authorized user, skip-PII off, live mode, generous limits. -/
def cfgAuth : Config :=
  { skip_messages_with_pii := false
    user := "batch"
    kafka_producer_flush_time_limit_seconds := 3600
    kafka_producer_buffer_size := 100
    dry_run := false }

/-- Like `cfgAuth` but with skip-PII enabled. -/
def cfgSkip : Config := { cfgAuth with skip_messages_with_pii := true }

/-- Like `cfgAuth` but in dry-run mode. -/
def cfgDry : Config := { cfgAuth with dry_run := true }

/-- Like `cfgAuth` but with a buffer size limit of 1. -/
def cfgSize1 : Config := { cfgAuth with kafka_producer_buffer_size := 1 }

/-- The freshly constructed producer state. -/
def state0 : PState :=
  { message_buffer := [], message_buffer_size := 0, start_time := 0, tracker := [] }

/-- A state with one buffered message for topic `t`. -/
def state1 : PState :=
  { message_buffer := [("t", [km0])], message_buffer_size := 1, start_time := 0, tracker := [] }

/-- A state with two buffered messages for topic `t`. -/
def state2 : PState :=
  { message_buffer := [("t", [km0, km1])], message_buffer_size := 2, start_time := 0
    tracker := [] }

/-- A concrete PII message. -/
def msgPii : Message :=
  { topic := "t", keys := [], contains_pii := true
    payload := PyVal.pybytes [9], payload_data := PyVal.pynone }

/-- A concrete non-PII message. -/
def msgPlain : Message :=
  { topic := "t", keys := [], contains_pii := false
    payload := PyVal.pybytes [9], payload_data := PyVal.pynone }

/- Helper lemmas. -/

theorem flush_flushed (cfg : Config) (s : PState) (now : Int)
    (broker : Option (List KafkaResponse)) :
    (flush_buffered_messages cfg s now broker).flushed = true := by
  unfold flush_buffered_messages
  split
  · rfl
  · split <;> rfl

theorem flush_requests (cfg : Config) (s : PState) (now : Int)
    (broker : Option (List KafkaResponse)) :
    (flush_buffered_messages cfg s now broker).requests = _generate_produce_requests s := by
  unfold flush_buffered_messages
  split
  · rfl
  · split <;> rfl

theorem fin_of_not_ready (cfg : Config) (s : PState) (now : Int)
    (broker : Option (List KafkaResponse)) (h : _is_ready_to_flush cfg s now = false) :
    _flush_if_necessary cfg s now broker =
      { state := s, requests := [], flushed := false, raised := false } := by
  simp [_flush_if_necessary, h]

theorem fin_of_ready (cfg : Config) (s : PState) (now : Int)
    (broker : Option (List KafkaResponse)) (h : _is_ready_to_flush cfg s now = true) :
    _flush_if_necessary cfg s now broker = flush_buffered_messages cfg s now broker := by
  simp [_flush_if_necessary, h]

theorem fin_flushed_iff (cfg : Config) (s : PState) (now : Int)
    (broker : Option (List KafkaResponse)) :
    (_flush_if_necessary cfg s now broker).flushed = true ↔
      _is_ready_to_flush cfg s now = true := by
  cases h : _is_ready_to_flush cfg s now
  · rw [fin_of_not_ready cfg s now broker h]
  · rw [fin_of_ready cfg s now broker h]
    simp [flush_flushed]

theorem publish_eq_accepted (cfg : Config) (C : Collab) (s : PState) (m : Message)
    (now : Int) (broker : Option (List KafkaResponse)) :
    publish cfg C s m now broker =
      match acceptedMessage cfg C m with
      | Option.none => { state := s, requests := [], flushed := false, raised := false }
      | some m2 =>
          _flush_if_necessary cfg
            (record_message_buffered (_add_message_to_buffer C s m2) m2) now broker := by
  cases hp : m.contains_pii
  · simp [publish, acceptedMessage, hp]
  · cases hs : cfg.skip_messages_with_pii
    · by_cases hu : cfg.user ∈ acceptable_users
      · cases he : _encrypt_message_with_pii C m
        · simp [publish, acceptedMessage, hp, hs, hu, he]
        · simp [publish, acceptedMessage, hp, hs, hu, he]
      · simp [publish, acceptedMessage, hp, hs, hu]
    · simp [publish, acceptedMessage, hp, hs]

theorem accepted_none_of_drop (cfg : Config) (C : Collab) (m : Message)
    (hp : m.contains_pii = true)
    (hd : cfg.skip_messages_with_pii = true ∨ acceptable_users.contains cfg.user = false ∨
      C.retrieve_key = Option.none) :
    acceptedMessage cfg C m = Option.none := by
  cases hs : cfg.skip_messages_with_pii
  · by_cases hu : cfg.user ∈ acceptable_users
    · have hk : C.retrieve_key = Option.none := by
        rcases hd with h | h | h
        · simp [h] at hs
        · simp at h
          exact absurd hu h
        · exact h
      simp [acceptedMessage, hp, hs, hu, _encrypt_message_with_pii, hk]
    · simp [acceptedMessage, hp, hs, hu]
  · simp [acceptedMessage, hp, hs]

theorem publish_drop_noop (cfg : Config) (C : Collab) (s : PState) (m : Message)
    (now : Int) (broker : Option (List KafkaResponse))
    (h : acceptedMessage cfg C m = Option.none) :
    publish cfg C s m now broker =
      { state := s, requests := [], flushed := false, raised := false } := by
  rw [publish_eq_accepted, h]

theorem bufAppend_sum (buf : List (String × List KafkaMessage)) (t : String)
    (km : KafkaMessage) :
    ((bufAppend buf t km).map (fun p => p.2.length)).sum =
      (buf.map (fun p => p.2.length)).sum + 1 := by
  induction buf with
  | nil => simp [bufAppend]
  | cons hd rest ih =>
      obtain ⟨t2, ms⟩ := hd
      by_cases h : t2 = t
      · simp only [bufAppend, if_pos h, List.map_cons, List.sum_cons, List.length_append,
          List.length_cons, List.length_nil]
        omega
      · simp only [bufAppend, if_neg h, List.map_cons, List.sum_cons, ih]
        omega

theorem bufAppend_get_self (buf : List (String × List KafkaMessage)) (t : String)
    (km : KafkaMessage) :
    bufGet (bufAppend buf t km) t = bufGet buf t ++ [km] := by
  induction buf with
  | nil => simp [bufAppend, bufGet]
  | cons hd rest ih =>
      obtain ⟨t2, ms⟩ := hd
      by_cases h : t2 = t
      · simp only [bufAppend, if_pos h, bufGet, ih]
      · simp only [bufAppend, if_neg h, bufGet, ih]

theorem bufAppend_get_other (buf : List (String × List KafkaMessage)) (t t2 : String)
    (km : KafkaMessage) (h : t ≠ t2) :
    bufGet (bufAppend buf t km) t2 = bufGet buf t2 := by
  induction buf with
  | nil =>
      simp only [bufAppend, bufGet]
      rw [if_neg h]
  | cons hd rest ih =>
      obtain ⟨t3, ms⟩ := hd
      by_cases h3 : t3 = t
      · have hne : t3 ≠ t2 := by rw [h3]; exact h
        simp only [bufAppend, if_pos h3, bufGet, if_neg hne]
      · simp only [bufAppend, if_neg h3, bufGet, ih]

theorem bufAppend_keys_sub (buf : List (String × List KafkaMessage)) (t : String)
    (km : KafkaMessage) : ∀ x, x ∈ (bufAppend buf t km).map Prod.fst →
    x = t ∨ x ∈ buf.map Prod.fst := by
  induction buf with
  | nil =>
      intro x hx
      simp [bufAppend] at hx
      exact Or.inl hx
  | cons hd rest ih =>
      obtain ⟨t2, ms⟩ := hd
      intro x hx
      by_cases h : t2 = t
      · simp only [bufAppend, if_pos h, List.map_cons, List.mem_cons] at hx
        simp only [List.map_cons, List.mem_cons]
        exact Or.inr hx
      · simp only [bufAppend, if_neg h, List.map_cons, List.mem_cons] at hx
        simp only [List.map_cons, List.mem_cons]
        rcases hx with hx | hx
        · exact Or.inr (Or.inl hx)
        · rcases ih x hx with h2 | h2
          · exact Or.inl h2
          · exact Or.inr (Or.inr h2)

theorem bufAppend_keys_nodup (buf : List (String × List KafkaMessage)) (t : String)
    (km : KafkaMessage) (h : (buf.map Prod.fst).Nodup) :
    ((bufAppend buf t km).map Prod.fst).Nodup := by
  induction buf with
  | nil => simp [bufAppend]
  | cons hd rest ih =>
      obtain ⟨t2, ms⟩ := hd
      simp only [List.map_cons, List.nodup_cons] at h
      by_cases h2 : t2 = t
      · simp only [bufAppend, if_pos h2, List.map_cons, List.nodup_cons]
        exact ⟨h.1, h.2⟩
      · simp only [bufAppend, if_neg h2, List.map_cons, List.nodup_cons]
        refine ⟨?_, ih h.2⟩
        intro hx
        rcases bufAppend_keys_sub rest t km t2 hx with h3 | h3
        · exact h2 h3
        · exact h.1 h3

theorem fin_not_flushed (cfg : Config) (s : PState) (now : Int)
    (broker : Option (List KafkaResponse))
    (h : (_flush_if_necessary cfg s now broker).flushed = false) :
    _is_ready_to_flush cfg s now = false ∧
      _flush_if_necessary cfg s now broker =
        { state := s, requests := [], flushed := false, raised := false } := by
  cases hx : _is_ready_to_flush cfg s now
  · exact ⟨rfl, fin_of_not_ready cfg s now broker hx⟩
  · rw [fin_of_ready cfg s now broker hx, flush_flushed] at h
    simp at h

theorem reset_sizeInv (s : PState) (now : Int) :
    sizeInv (_reset_message_buffer s now) := by
  simp [sizeInv, _reset_message_buffer]

theorem flush_preserves_sizeInv (cfg : Config) (s : PState) (now : Int)
    (broker : Option (List KafkaResponse)) (h : sizeInv s) :
    sizeInv (flush_buffered_messages cfg s now broker).state := by
  unfold flush_buffered_messages
  split
  · exact reset_sizeInv _ _
  · split
    · exact h
    · exact reset_sizeInv _ _

theorem fin_preserves_sizeInv (cfg : Config) (s : PState) (now : Int)
    (broker : Option (List KafkaResponse)) (h : sizeInv s) :
    sizeInv (_flush_if_necessary cfg s now broker).state := by
  unfold _flush_if_necessary
  split
  · exact flush_preserves_sizeInv cfg s now broker h
  · exact h

theorem add_record_sizeInv (C : Collab) (s : PState) (m : Message) (h : sizeInv s) :
    sizeInv (record_message_buffered (_add_message_to_buffer C s m) m) := by
  simp only [sizeInv, record_message_buffered, _add_message_to_buffer] at h ⊢
  rw [bufAppend_sum]
  omega

theorem add_record_size (C : Collab) (s : PState) (m : Message) :
    (record_message_buffered (_add_message_to_buffer C s m) m).message_buffer_size =
      s.message_buffer_size + 1 := rfl

theorem step_preserves_sizeInv (cfg : Config) (C : Collab) (s : PState) (op : Op)
    (h : sizeInv s) : sizeInv (stepOp cfg C s op).state := by
  cases op with
  | publish m now broker =>
      simp only [stepOp]
      rw [publish_eq_accepted]
      cases ha : acceptedMessage cfg C m
      · exact h
      · exact fin_preserves_sizeInv cfg _ now broker (add_record_sizeInv C s _ h)
  | wake now broker => exact fin_preserves_sizeInv cfg s now broker h
  | flush now broker => exact flush_preserves_sizeInv cfg s now broker h

theorem run_preserves_sizeInv (cfg : Config) (C : Collab) :
    ∀ (ops : List Op) (s : PState), sizeInv s → sizeInv (run cfg C s ops).state := by
  intro ops
  induction ops with
  | nil => intro s h; exact h
  | cons op ops ih =>
      intro s h
      exact ih _ (step_preserves_sizeInv cfg C s op h)

theorem reset_topicsNodup (s : PState) (now : Int) :
    topicsNodup (_reset_message_buffer s now) := by
  simp [topicsNodup, _reset_message_buffer]

theorem flush_preserves_topicsNodup (cfg : Config) (s : PState) (now : Int)
    (broker : Option (List KafkaResponse)) (h : topicsNodup s) :
    topicsNodup (flush_buffered_messages cfg s now broker).state := by
  unfold flush_buffered_messages
  split
  · exact reset_topicsNodup _ _
  · split
    · exact h
    · exact reset_topicsNodup _ _

theorem fin_preserves_topicsNodup (cfg : Config) (s : PState) (now : Int)
    (broker : Option (List KafkaResponse)) (h : topicsNodup s) :
    topicsNodup (_flush_if_necessary cfg s now broker).state := by
  unfold _flush_if_necessary
  split
  · exact flush_preserves_topicsNodup cfg s now broker h
  · exact h

theorem step_preserves_topicsNodup (cfg : Config) (C : Collab) (s : PState) (op : Op)
    (h : topicsNodup s) : topicsNodup (stepOp cfg C s op).state := by
  cases op with
  | publish m now broker =>
      simp only [stepOp]
      rw [publish_eq_accepted]
      cases ha : acceptedMessage cfg C m
      · exact h
      · refine fin_preserves_topicsNodup cfg _ now broker ?_
        exact bufAppend_keys_nodup s.message_buffer _ _ h
  | wake now broker => exact fin_preserves_topicsNodup cfg s now broker h
  | flush now broker => exact flush_preserves_topicsNodup cfg s now broker h

theorem run_preserves_topicsNodup (cfg : Config) (C : Collab) :
    ∀ (ops : List Op) (s : PState), topicsNodup s → topicsNodup (run cfg C s ops).state := by
  intro ops
  induction ops with
  | nil => intro s h; exact h
  | cons op ops ih =>
      intro s h
      exact ih _ (step_preserves_topicsNodup cfg C s op h)

theorem step_noflush_size (cfg : Config) (C : Collab) (s : PState) (op : Op)
    (h : (stepOp cfg C s op).flushed = false) :
    (stepOp cfg C s op).state.message_buffer_size =
      s.message_buffer_size + acceptedDelta cfg C op := by
  cases op with
  | publish m now broker =>
      simp only [stepOp] at h ⊢
      rw [publish_eq_accepted] at h ⊢
      cases ha : acceptedMessage cfg C m with
      | none => simp [ha, acceptedDelta]
      | some m2 =>
          rw [ha] at h
          show (_flush_if_necessary cfg
              (record_message_buffered (_add_message_to_buffer C s m2) m2) now
                broker).state.message_buffer_size = _
          rw [(fin_not_flushed cfg _ now broker h).2]
          simp [acceptedDelta, ha, add_record_size]
  | wake now broker =>
      simp only [stepOp, wake] at h ⊢
      rw [(fin_not_flushed cfg s now broker h).2]
      simp [acceptedDelta]
  | flush now broker =>
      simp only [stepOp] at h
      rw [flush_flushed] at h
      simp at h

theorem step_noflush_bufGet (cfg : Config) (C : Collab) (s : PState) (op : Op) (t : String)
    (h : (stepOp cfg C s op).flushed = false) :
    bufGet (stepOp cfg C s op).state.message_buffer t =
      bufGet s.message_buffer t ++ acceptedPrepared cfg C t [op] := by
  cases op with
  | publish m now broker =>
      simp only [stepOp] at h ⊢
      rw [publish_eq_accepted] at h ⊢
      cases ha : acceptedMessage cfg C m with
      | none => simp [ha, acceptedPrepared]
      | some m2 =>
          rw [ha] at h
          show bufGet (_flush_if_necessary cfg
              (record_message_buffered (_add_message_to_buffer C s m2) m2) now
                broker).state.message_buffer t = _
          rw [(fin_not_flushed cfg _ now broker h).2]
          simp only [record_message_buffered, _add_message_to_buffer]
          by_cases ht : m2.topic = t
          · rw [ht, bufAppend_get_self]
            simp [acceptedPrepared, ha, ht]
          · rw [bufAppend_get_other _ _ _ _ ht]
            simp [acceptedPrepared, ha, ht]
  | wake now broker =>
      simp only [stepOp, wake] at h ⊢
      rw [(fin_not_flushed cfg s now broker h).2]
      simp [acceptedPrepared]
  | flush now broker =>
      simp only [stepOp] at h
      rw [flush_flushed] at h
      simp at h

theorem acceptedPrepared_cons (cfg : Config) (C : Collab) (t : String) (op : Op)
    (ops : List Op) :
    acceptedPrepared cfg C t (op :: ops) =
      acceptedPrepared cfg C t [op] ++ acceptedPrepared cfg C t ops := by
  cases op <;> simp [acceptedPrepared]

theorem run_flushed_split (cfg : Config) (C : Collab) (s : PState) (op : Op) (ops : List Op)
    (h : (run cfg C s (op :: ops)).flushed = false) :
    (stepOp cfg C s op).flushed = false ∧
      (run cfg C (stepOp cfg C s op).state ops).flushed = false := by
  simp only [run, Bool.or_eq_false_iff] at h
  exact h

theorem run_noflush_size (cfg : Config) (C : Collab) :
    ∀ (ops : List Op) (s : PState), (run cfg C s ops).flushed = false →
      (run cfg C s ops).state.message_buffer_size =
        s.message_buffer_size + acceptedCount cfg C ops := by
  intro ops
  induction ops with
  | nil =>
      intro s h
      simp [run, acceptedCount]
  | cons op ops ih =>
      intro s h
      obtain ⟨h1, h2⟩ := run_flushed_split cfg C s op ops h
      simp only [run]
      rw [ih _ h2, step_noflush_size cfg C s op h1]
      simp only [acceptedCount, List.map_cons, List.sum_cons]
      omega

theorem run_noflush_bufGet (cfg : Config) (C : Collab) (t : String) :
    ∀ (ops : List Op) (s : PState), (run cfg C s ops).flushed = false →
      bufGet (run cfg C s ops).state.message_buffer t =
        bufGet s.message_buffer t ++ acceptedPrepared cfg C t ops := by
  intro ops
  induction ops with
  | nil =>
      intro s h
      simp [run, acceptedPrepared]
  | cons op ops ih =>
      intro s h
      obtain ⟨h1, h2⟩ := run_flushed_split cfg C s op ops h
      simp only [run]
      rw [ih _ h2, step_noflush_bufGet cfg C s op t h1, acceptedPrepared_cons cfg C t op ops]
      simp [acceptedPrepared, List.append_assoc]

theorem run_filter_noop (cfg : Config) (C : Collab) (m : Message)
    (hstep : ∀ (s : PState) (now : Int) (broker : Option (List KafkaResponse)),
      publish cfg C s m now broker =
        { state := s, requests := [], flushed := false, raised := false }) :
    ∀ (ops : List Op) (s : PState),
      run cfg C s (ops.filter (fun op => !(isPublishOfMsg m op))) = run cfg C s ops := by
  intro ops
  induction ops with
  | nil => intro s; rfl
  | cons op ops ih =>
      intro s
      cases op with
      | publish m2 now broker =>
          by_cases hm : m2 = m
          · subst hm
            have hcond : (!(isPublishOfMsg m2 (Op.publish m2 now broker))) = false := by
              simp [isPublishOfMsg]
            simp only [List.filter_cons, hcond, Bool.false_eq_true, if_false]
            rw [ih]
            simp [run, stepOp, hstep s now broker]
          · have hcond : (!(isPublishOfMsg m (Op.publish m2 now broker))) = true := by
              simp [isPublishOfMsg, hm]
            simp only [List.filter_cons, hcond, if_true]
            simp only [run]
            rw [ih]
      | wake now broker =>
          have hcond : (!(isPublishOfMsg m (Op.wake now broker))) = true := by
            simp [isPublishOfMsg]
          simp only [List.filter_cons, hcond, if_true]
          simp only [run]
          rw [ih]
      | flush now broker =>
          have hcond : (!(isPublishOfMsg m (Op.flush now broker))) = true := by
            simp [isPublishOfMsg]
          simp only [List.filter_cons, hcond, if_true]
          simp only [run]
          rw [ih]

theorem gen_messages_bufGet :
    ∀ (buf : List (String × List KafkaMessage)), (buf.map Prod.fst).Nodup →
      ∀ p ∈ buf, bufGet buf p.1 = p.2 := by
  intro buf
  induction buf with
  | nil => intro _ p hp; cases hp
  | cons hd rest ih =>
      obtain ⟨t0, ms⟩ := hd
      intro hnd p hp
      simp only [List.map_cons, List.nodup_cons] at hnd
      rcases List.mem_cons.mp hp with h | h
      · subst h
        simp [bufGet]
      · have hne : t0 ≠ p.1 := by
          intro he
          exact hnd.1 (he ▸ List.mem_map_of_mem Prod.fst h)
        simp only [bufGet, if_neg hne]
        exact ih hnd.2 p h

/- Claim theorems. -/

/-- C1: a message whose PII flag is set and that the privacy gate drops
(skip-PII enabled, or the user is not in the allow-list, or key retrieval
fails) makes `publish` return with the state completely unchanged — nothing
buffered, no position accounting, no flush, no raise — and any operation
sequence produces exactly the same states and the same produce requests as
the sequence with every publish of that message removed, so the message is
never present in any `ProduceRequest` handed to the executor. -/
theorem pii_dropped_message_never_published
    (cfg : Config) (C : Collab) (s : PState) (m : Message)
    (hp : m.contains_pii = true)
    (hd : cfg.skip_messages_with_pii = true ∨ acceptable_users.contains cfg.user = false ∨
      C.retrieve_key = Option.none) :
    (∀ (now : Int) (broker : Option (List KafkaResponse)),
      publish cfg C s m now broker =
        { state := s, requests := [], flushed := false, raised := false }) ∧
    (∀ ops : List Op,
      run cfg C s (ops.filter (fun op => !(isPublishOfMsg m op))) = run cfg C s ops) := by
  have ha := accepted_none_of_drop cfg C m hp hd
  have hstep : ∀ (s2 : PState) (now : Int) (broker : Option (List KafkaResponse)),
      publish cfg C s2 m now broker =
        { state := s2, requests := [], flushed := false, raised := false } :=
    fun s2 now broker => publish_drop_noop cfg C s2 m now broker ha
  exact ⟨fun now broker => hstep s now broker,
    fun ops => run_filter_noop cfg C m hstep ops s⟩

theorem pii_dropped_message_never_published_witness :
    publish cfgSkip collab0 state0 msgPii 0 Option.none =
      { state := state0, requests := [], flushed := false, raised := false } :=
  (pii_dropped_message_never_published cfgSkip collab0 state0 msgPii rfl
    (Or.inl rfl)).1 0 Option.none

/-- C2: the privacy gate decides Pass exactly when the PII flag is clear (and
then the message is buffered untransformed), Drop exactly when the flag is set
and skip-PII is enabled or the user is not in the allow-list or key retrieval
fails, and Encrypt in exactly the remaining case; `publish` follows the gate
outcome. -/
theorem privacy_gate_decision (cfg : Config) (C : Collab) (m : Message) :
    ((gateDecision cfg C m = Decision.Pass) ↔ m.contains_pii = false) ∧
    ((gateDecision cfg C m = Decision.Drop) ↔
      (m.contains_pii = true ∧ (cfg.skip_messages_with_pii = true ∨
        cfg.user ∉ acceptable_users ∨ C.retrieve_key = Option.none))) ∧
    ((gateDecision cfg C m = Decision.Encrypt) ↔
      (m.contains_pii = true ∧ cfg.skip_messages_with_pii = false ∧
        cfg.user ∈ acceptable_users ∧ C.retrieve_key ≠ Option.none)) ∧
    (gateDecision cfg C m = Decision.Pass → acceptedMessage cfg C m = some m) ∧
    (gateDecision cfg C m = Decision.Drop → acceptedMessage cfg C m = Option.none) ∧
    (∀ (s : PState) (now : Int) (broker : Option (List KafkaResponse)),
      publish cfg C s m now broker =
        match acceptedMessage cfg C m with
        | Option.none => { state := s, requests := [], flushed := false, raised := false }
        | some m2 => _flush_if_necessary cfg
            (record_message_buffered (_add_message_to_buffer C s m2) m2) now broker) := by
  refine ⟨?_, ?_, ?_, ?_, ?_, fun s now broker => publish_eq_accepted cfg C s m now broker⟩ <;>
  (cases hp : m.contains_pii <;>
   cases hs : cfg.skip_messages_with_pii <;>
   by_cases hu : cfg.user ∈ acceptable_users <;>
   cases hk : C.retrieve_key <;>
   simp [gateDecision, acceptedMessage, _encrypt_message_with_pii, hp, hs, hu, hk])

theorem privacy_gate_decision_witness :
    acceptedMessage cfgAuth collab0 msgPlain = some msgPlain :=
  (privacy_gate_decision cfgAuth collab0 msgPlain).2.2.2.1 rfl

/-- C3: on the Encrypt decision the message's payload is mutated exactly once
before buffering, replacing whichever payload representation is present (raw
blob or structured dict) with the encrypted form, all other fields untouched;
`publish` buffers exactly the prepared form of that mutated message, so the
buffered copy carries the encrypted payload, never the original. -/
theorem encrypt_replaces_payload_before_buffering (C : Collab) (key : Nat) (m : Message) :
    (∀ b : List Nat, m.payload = PyVal.pybytes b → b ≠ [] →
      (_encrypt_message_using_yelp_crypto C key m).payload =
          C.encrypt_blob key (PyVal.pybytes b) ∧
        (_encrypt_message_using_yelp_crypto C key m).payload_data = m.payload_data ∧
        (_encrypt_message_using_yelp_crypto C key m).topic = m.topic ∧
        (_encrypt_message_using_yelp_crypto C key m).keys = m.keys ∧
        (_encrypt_message_using_yelp_crypto C key m).contains_pii = m.contains_pii ∧
        (C.encrypt_blob key (PyVal.pybytes b) ≠ PyVal.pybytes b →
          (_encrypt_message_using_yelp_crypto C key m).payload ≠ m.payload)) ∧
    (∀ d : List (String × Nat), m.payload.truthy = false → m.payload_data = PyVal.pydict d →
      (_encrypt_message_using_yelp_crypto C key m).payload_data =
          C.json_loads (C.encrypt_blob key (C.json_dumps (PyVal.pydict d))) ∧
        (_encrypt_message_using_yelp_crypto C key m).payload = m.payload ∧
        (_encrypt_message_using_yelp_crypto C key m).topic = m.topic ∧
        (_encrypt_message_using_yelp_crypto C key m).keys = m.keys ∧
        (_encrypt_message_using_yelp_crypto C key m).contains_pii = m.contains_pii) ∧
    (∀ (cfg : Config) (s : PState) (now : Int) (broker : Option (List KafkaResponse)),
      m.contains_pii = true → cfg.skip_messages_with_pii = false →
      cfg.user ∈ acceptable_users → C.retrieve_key = some key →
      publish cfg C s m now broker =
        _flush_if_necessary cfg
          (record_message_buffered
            (_add_message_to_buffer C s (_encrypt_message_using_yelp_crypto C key m))
            (_encrypt_message_using_yelp_crypto C key m)) now broker ∧
      (_add_message_to_buffer C s (_encrypt_message_using_yelp_crypto C key m)).message_buffer =
        bufAppend s.message_buffer (_encrypt_message_using_yelp_crypto C key m).topic
          (_prepare_message C (_encrypt_message_using_yelp_crypto C key m))) := by
  refine ⟨?_, ?_, ?_⟩
  · intro b hb hne
    have hb2 : b.isEmpty = false := by
      cases b
      · exact absurd rfl hne
      · rfl
    have hm : _encrypt_message_using_yelp_crypto C key m =
        { m with payload := C.encrypt_blob key (PyVal.pybytes b) } := by
      unfold _encrypt_message_using_yelp_crypto
      rw [hb]
      simp [pyOr, PyVal.truthy, hb2]
    refine ⟨by rw [hm], by rw [hm], by rw [hm], by rw [hm], by rw [hm], ?_⟩
    intro hne2
    rw [hm, hb]
    exact hne2
  · intro d ht hd
    have hm : _encrypt_message_using_yelp_crypto C key m =
        { m with payload_data :=
          C.json_loads (C.encrypt_blob key (C.json_dumps (PyVal.pydict d))) } := by
      unfold _encrypt_message_using_yelp_crypto
      rw [hd]
      simp [pyOr, ht]
    exact ⟨by rw [hm], by rw [hm], by rw [hm], by rw [hm], by rw [hm]⟩
  · intro cfg s now broker hp hs hu hk
    have ha : acceptedMessage cfg C m = some (_encrypt_message_using_yelp_crypto C key m) := by
      simp [acceptedMessage, hp, hs, hu, _encrypt_message_with_pii, hk]
    constructor
    · rw [publish_eq_accepted, ha]
    · rfl

theorem encrypt_replaces_payload_before_buffering_witness :
    (_encrypt_message_using_yelp_crypto collab0 7 msgPii).payload =
      collab0.encrypt_blob 7 (PyVal.pybytes [9]) :=
  ((encrypt_replaces_payload_before_buffering collab0 7 msgPii).1 [9] rfl
    (by decide)).1

/-- C4: a flush triggers exactly when elapsed time since the buffer start is
at least the configured time limit or the buffered count is at least the
configured size limit (both inclusive); `wake` performs exactly this check
without appending, and `publish` performs it after appending, so a message
that brings the count exactly to the size limit flushes on the same call. -/
theorem flush_policy_inclusive (cfg : Config) (C : Collab) (s : PState) (m : Message)
    (now : Int) (broker : Option (List KafkaResponse)) :
    (_is_ready_to_flush cfg s now = true ↔
      (now - s.start_time ≥ cfg.kafka_producer_flush_time_limit_seconds ∨
        s.message_buffer_size ≥ cfg.kafka_producer_buffer_size)) ∧
    (wake cfg s now broker =
      if _is_ready_to_flush cfg s now then flush_buffered_messages cfg s now broker
      else { state := s, requests := [], flushed := false, raised := false }) ∧
    (_is_ready_to_flush cfg s now = false →
      wake cfg s now broker = { state := s, requests := [], flushed := false, raised := false }) ∧
    (_is_ready_to_flush cfg s now = true → (wake cfg s now broker).flushed = true) ∧
    (∀ m2 : Message, acceptedMessage cfg C m = some m2 →
      publish cfg C s m now broker =
        _flush_if_necessary cfg
          (record_message_buffered (_add_message_to_buffer C s m2) m2) now broker ∧
      (record_message_buffered (_add_message_to_buffer C s m2) m2).message_buffer_size =
        s.message_buffer_size + 1 ∧
      (s.message_buffer_size + 1 ≥ cfg.kafka_producer_buffer_size →
        (publish cfg C s m now broker).flushed = true)) := by
  refine ⟨?_, rfl, ?_, ?_, ?_⟩
  · simp [_is_ready_to_flush]
  · intro h
    exact fin_of_not_ready cfg s now broker h
  · intro h
    rw [wake, fin_of_ready cfg s now broker h]
    exact flush_flushed cfg s now broker
  · intro m2 hm2
    refine ⟨?_, add_record_size C s m2, ?_⟩
    · rw [publish_eq_accepted, hm2]
    · intro hge
      have hr : _is_ready_to_flush cfg
          (record_message_buffered (_add_message_to_buffer C s m2) m2) now = true := by
        simp [_is_ready_to_flush, add_record_size, record_message_buffered,
          _add_message_to_buffer]
        omega
      rw [publish_eq_accepted, hm2]
      show (_flush_if_necessary cfg
          (record_message_buffered (_add_message_to_buffer C s m2) m2) now broker).flushed = true
      rw [fin_of_ready cfg _ now broker hr]
      exact flush_flushed cfg _ now broker

theorem flush_policy_inclusive_witness :
    (publish cfgSize1 collab0 state0 msgPlain 0 (some [])).flushed = true :=
  ((flush_policy_inclusive cfgSize1 collab0 state0 msgPlain 0 (some [])).2.2.2.2
    msgPlain rfl).2.2 (by decide)

/-- C5: the live executor as implemented performs a single send with no retry
loop and ignores response error codes.  First conjunct (the failing input): a
response for topic `t` carrying non-zero error code 3 is recorded as
published and the flush completes with `raised = false` and a reset buffer —
the code claims success instead of retrying the failed topic.  Second
conjunct: when no topic is acknowledged the assertion raises immediately,
with no re-send of the unacknowledged requests.  Both contradict the claimed
bounded-retry-then-fatal-abort behavior, which the source's own TODO comments
(DATAPIPE-149) mark as unimplemented. -/
theorem live_publish_no_retry_behavior :
    (flush_buffered_messages cfgAuth state1 50
        (some [{ topic := "t", offset := 5, error := 3 }]) =
      { state :=
          { message_buffer := [],
            message_buffer_size := 0,
            start_time := 50,
            tracker := [TrackerEvent.published "t" 5 1] },
        requests := [{ topic := "t", partition := 0, messages := [km0] }],
        flushed := true,
        raised := false }) ∧
    (flush_buffered_messages cfgAuth state1 50 (some []) =
      { state :=
          { message_buffer := [("t", [km0])],
            message_buffer_size := 1,
            start_time := 0,
            tracker := [] },
        requests := [{ topic := "t", partition := 0, messages := [km0] }],
        flushed := true,
        raised := true }) := by
  constructor
  · rfl
  · rfl

/-- C6: the buffer total always equals the sum of per-topic sequence lengths
(preserved by every operation sequence), every append raises both by exactly
one, every reset re-establishes the invariant at zero, and after any sequence
of calls in which no flush ran the total equals the initial total plus the
number of accepted (non-dropped) publishes. -/
theorem buffer_size_accounting (cfg : Config) (C : Collab) (s : PState) (ops : List Op) :
    (sizeInv s → sizeInv (run cfg C s ops).state) ∧
    (∀ m : Message,
      (_add_message_to_buffer C s m).message_buffer_size = s.message_buffer_size + 1 ∧
      (sizeInv s → sizeInv (_add_message_to_buffer C s m))) ∧
    (∀ now : Int,
      (_reset_message_buffer s now).message_buffer_size = 0 ∧
      (_reset_message_buffer s now).message_buffer = [] ∧
      sizeInv (_reset_message_buffer s now)) ∧
    ((run cfg C s ops).flushed = false →
      (run cfg C s ops).state.message_buffer_size =
        s.message_buffer_size + acceptedCount cfg C ops) := by
  refine ⟨run_preserves_sizeInv cfg C ops s, ?_, ?_, run_noflush_size cfg C ops s⟩
  · intro m
    refine ⟨rfl, ?_⟩
    intro h
    simp only [sizeInv, _add_message_to_buffer] at h ⊢
    rw [bufAppend_sum]
    omega
  · intro now
    exact ⟨rfl, rfl, reset_sizeInv s now⟩

theorem buffer_size_accounting_witness :
    (run cfgAuth collab0 state0 [Op.publish msgPlain 0 Option.none]).state.message_buffer_size =
      state0.message_buffer_size +
        acceptedCount cfgAuth collab0 [Op.publish msgPlain 0 Option.none] :=
  (buffer_size_accounting cfgAuth collab0 state0
    [Op.publish msgPlain 0 Option.none]).2.2.2 (by decide)

/-- C7: the request builder emits exactly one ProduceRequest per buffer topic
(topics in buffer order, hence without duplicates since the buffer keeps one
entry per topic), each with partition fixed to 0 and with exactly that
topic's buffered message sequence; and after any flush-free operation
sequence a topic's buffered sequence is the initial sequence followed by the
prepared forms of the accepted publishes for that topic in publish order. -/
theorem produce_request_builder (cfg : Config) (C : Collab) (s : PState) (ops : List Op)
    (t : String) :
    ((_generate_produce_requests s).map (fun r => r.topic) =
      s.message_buffer.map Prod.fst) ∧
    (∀ r, r ∈ _generate_produce_requests s →
      r.partition = 0 ∧ (r.topic, r.messages) ∈ s.message_buffer) ∧
    (topicsNodup s →
      ((_generate_produce_requests s).map (fun r => r.topic)).Nodup ∧
      ∀ r, r ∈ _generate_produce_requests s →
        r.messages = bufGet s.message_buffer r.topic) ∧
    (topicsNodup s → topicsNodup (run cfg C s ops).state) ∧
    ((run cfg C s ops).flushed = false →
      bufGet (run cfg C s ops).state.message_buffer t =
        bufGet s.message_buffer t ++ acceptedPrepared cfg C t ops) := by
  refine ⟨?_, ?_, ?_, run_preserves_topicsNodup cfg C ops s,
    run_noflush_bufGet cfg C t ops s⟩
  · simp [_generate_produce_requests, List.map_map]
  · intro r hr
    simp only [_generate_produce_requests, List.mem_map] at hr
    obtain ⟨tm, htm, rfl⟩ := hr
    exact ⟨rfl, htm⟩
  · intro hnd
    constructor
    · simp only [_generate_produce_requests, List.map_map]
      exact hnd
    · intro r hr
      simp only [_generate_produce_requests, List.mem_map] at hr
      obtain ⟨tm, htm, rfl⟩ := hr
      exact (gen_messages_bufGet s.message_buffer hnd tm htm).symm

theorem produce_request_builder_witness :
    bufGet (run cfgAuth collab0 state0
        [Op.publish msgPlain 0 Option.none]).state.message_buffer "t" =
      bufGet state0.message_buffer "t" ++
        acceptedPrepared cfgAuth collab0 "t" [Op.publish msgPlain 0 Option.none] :=
  (produce_request_builder cfgAuth collab0 state0
    [Op.publish msgPlain 0 Option.none] "t").2.2.2.2 (by decide)

/-- C8: in dry-run mode a flush never consults the broker transport (its
outcome is independent of what the transport would return), records for every
produce request a published-offset sentinel of -1 together with that
request's exact message count keyed by the request's topic, never raises,
and resets the buffer. -/
theorem dry_run_flush (cfg : Config) (s : PState) (now : Int)
    (broker broker2 : Option (List KafkaResponse)) (hdry : cfg.dry_run = true) :
    flush_buffered_messages cfg s now broker = flush_buffered_messages cfg s now broker2 ∧
    (flush_buffered_messages cfg s now broker).state.tracker =
      s.tracker ++ (_generate_produce_requests s).map
        (fun r => TrackerEvent.published r.topic (-1) r.messages.length) ∧
    (flush_buffered_messages cfg s now broker).raised = false ∧
    (flush_buffered_messages cfg s now broker).requests = _generate_produce_requests s ∧
    (flush_buffered_messages cfg s now broker).state.message_buffer = [] ∧
    (flush_buffered_messages cfg s now broker).state.message_buffer_size = 0 ∧
    (flush_buffered_messages cfg s now broker).state.start_time = now := by
  unfold flush_buffered_messages
  rw [hdry]
  simp [_publish_produce_requests_dry_run, _reset_message_buffer]

theorem dry_run_flush_witness :
    (flush_buffered_messages cfgDry state2 0 Option.none).state.tracker =
      state2.tracker ++ (_generate_produce_requests state2).map
        (fun r => TrackerEvent.published r.topic (-1) r.messages.length) :=
  (dry_run_flush cfgDry state2 0 Option.none Option.none rfl).2.1

/-- C9: `close` performs the final flush first and releases the transport
connection exactly when that flush returns; with an empty buffer the flush
generates no produce requests (so no messages are sent) and only refreshes
the start timestamp, after which the transport is released. -/
theorem close_flushes_then_releases (cfg : Config) (s : PState) (now : Int)
    (broker : Option (List KafkaResponse)) :
    close cfg s now broker =
      (flush_buffered_messages cfg s now broker,
        !(flush_buffered_messages cfg s now broker).raised) ∧
    ((flush_buffered_messages cfg s now broker).raised = false →
      (close cfg s now broker).2 = true) ∧
    (s.message_buffer = [] → (flush_buffered_messages cfg s now broker).requests = []) ∧
    (s.message_buffer = [] → s.message_buffer_size = 0 →
      (cfg.dry_run = true ∨ broker = some []) →
      flush_buffered_messages cfg s now broker =
        { state := { s with start_time := now }, requests := [], flushed := true,
          raised := false } ∧
      (close cfg s now broker).2 = true) := by
  refine ⟨rfl, ?_, ?_, ?_⟩
  · intro h
    simp [close, h]
  · intro hb
    rw [flush_requests]
    simp [_generate_produce_requests, hb]
  · intro hb hsz hcase
    have hreq : _generate_produce_requests s = [] := by
      simp [_generate_produce_requests, hb]
    have hflush : flush_buffered_messages cfg s now broker =
        { state := { s with start_time := now }, requests := [], flushed := true,
          raised := false } := by
      cases hdry : cfg.dry_run
      · have hbrk : broker = some [] := by
          rcases hcase with h | h
          · simp [h] at hdry
          · exact h
        subst hbrk
        have hcount : (_publish_produce_requests s (_generate_produce_requests s)
            (some [])).2 = false := by
          simp [_publish_produce_requests, publishedCount, hsz]
        unfold flush_buffered_messages
        rw [hdry]
        simp only [Bool.false_eq_true, if_false, hcount]
        simp [_publish_produce_requests, _reset_message_buffer, hreq, hb, hsz]
      · unfold flush_buffered_messages
        rw [hdry]
        simp [_publish_produce_requests_dry_run, _reset_message_buffer, hreq, hb, hsz]
    exact ⟨hflush, by simp [close, hflush]⟩

theorem close_flushes_then_releases_witness :
    flush_buffered_messages cfgAuth state0 5 (some []) =
      { state := { state0 with start_time := 5 }, requests := [], flushed := true,
        raised := false } :=
  ((close_flushes_then_releases cfgAuth state0 5 (some [])).2.2.2 rfl rfl
    (Or.inr rfl)).1

/-- C10: when the live publish fails — the transport call raises, or the
published-message count does not match the buffered total — the error
propagates out of `flush_buffered_messages` (`raised = true`) and the buffer
is not reset: every buffered message, the total count and the start
timestamp are exactly as before the call, so a failed flush never discards
buffered messages. -/
theorem failed_flush_preserves_buffer (cfg : Config) (s : PState) (now : Int)
    (broker : Option (List KafkaResponse)) (hlive : cfg.dry_run = false)
    (hfail : broker = Option.none ∨
      ∃ rs, broker = some rs ∧ publishedCount s rs ≠ s.message_buffer_size) :
    (flush_buffered_messages cfg s now broker).raised = true ∧
    (flush_buffered_messages cfg s now broker).state.message_buffer = s.message_buffer ∧
    (flush_buffered_messages cfg s now broker).state.message_buffer_size =
      s.message_buffer_size ∧
    (flush_buffered_messages cfg s now broker).state.start_time = s.start_time := by
  have hout : (_publish_produce_requests s (_generate_produce_requests s) broker).2 = true := by
    rcases hfail with h | ⟨rs, hb, hne⟩
    · subst h
      rfl
    · subst hb
      simp [_publish_produce_requests, hne]
  unfold flush_buffered_messages
  rw [hlive]
  simp [hout]

theorem failed_flush_preserves_buffer_witness :
    (flush_buffered_messages cfgAuth state1 0 Option.none).state.message_buffer =
      state1.message_buffer :=
  (failed_flush_preserves_buffer cfgAuth state1 0 Option.none rfl (Or.inl rfl)).2.1

end DataPipeline
